import Mathlib

/-!
# Verification of the client-side tabular data controller

Shallow embedding of the data-grid logic of `src/components/UsersTable.tsx`
and `src/components/AdminInspectionsPanel.tsx` (filter → sort → paginate →
optimistic-mutate → CSV export), with theorems settling the specified
properties of the controller.

Conventions of the embedding:
* JS scalar cell values become the inductive `Value` (string, number,
  boolean, null/undefined collapsed to `vnull` as the source only tests
  `== null`).
* `Array.prototype.sort` with the source's comparator is embedded as a
  stable insertion sort `sortByLe` over the boolean relation
  `cmp a b ≤ 0`; for a consistent comparator (the source's is a total
  preorder) this computes the same list as any stable sort.
* `Date.parse` and `localeCompare` are JS builtins external to the
  repository: `Date.parse` is abstracted as a parameter
  `dp : String → Option Int` (`none` = NaN), and `localeCompare` as
  code-point comparison of the already-lowercased strings.
* React state is collected in one record `TableState`; each event handler
  and each `useEffect` reaction becomes a state transition `applyOp`.
  The page-reset effect `useEffect(() => setPage(1), [query, pageSize,
  activeTab])` fires exactly when one of its dependencies changes between
  renders, so a setter called with the value already in state leaves the
  state unchanged (React bails out of the re-render and the effect does
  not re-run).
-/

namespace HseApp

/-- Sort direction, `sortDir` state of `UsersTable.tsx`. -/
inductive SortDir
  | asc
  | desc
deriving DecidableEq, Repr

/-- A JS scalar cell value as used by the table records: string, number,
boolean, or null/undefined (both compare `== null` in the source). -/
inductive Value
  | vnull
  | vnum (n : Int)
  | vstr (s : String)
  | vbool (b : Bool)
deriving DecidableEq, Repr

/-- JS `String(v)` on a scalar value (used by the comparator fallback and
by the CSV serializer). -/
def strOfValue : Value → String
  | .vnull => "null"
  | .vnum n => toString n
  | .vstr s => s
  | .vbool b => if b then "true" else "false"

/-- `localeCompare` of the source, modelled as code-point comparison
(adequate for the ASCII data the tables hold): `-1`, `0` or `1`. -/
def lcCmp (a b : String) : Int :=
  match compare a b with
  | .lt => -1
  | .eq => 0
  | .gt => 1

/-- JS `toLowerCase`, modelled character-wise (adequate for the ASCII
data the tables hold). -/
def toLowerStr (s : String) : String :=
  String.mk (s.toList.map Char.toLower)

/-- JS `trim`: strip whitespace from both ends. -/
def trimStr (s : String) : String :=
  String.mk (((s.toList.dropWhile Char.isWhitespace).reverse.dropWhile
    Char.isWhitespace).reverse)

/-- The final fallback of the sort comparator in `UsersTable.tsx`
(lines 256-258): lowercase both `String(v)` images, then
`localeCompare`, direction-swapped for descending. -/
def cmpFallback (dir : SortDir) (av bv : Value) : Int :=
  let as := toLowerStr (strOfValue av)
  let bs := toLowerStr (strOfValue bv)
  if dir = .asc then lcCmp as bs else lcCmp bs as

/-- The sort comparator of `UsersTable.tsx` lines 242-258.
`dp` abstracts `Date.parse` (`none` = `NaN`).  Null/undefined values
compare last regardless of `dir` (the early returns `1` / `-1` are not
direction-swapped in the source). -/
def cmpValue (dp : String → Option Int) (dir : SortDir) (av bv : Value) : Int :=
  match av, bv with
  | .vnull, .vnull => 0
  | .vnull, _ => 1
  | _, .vnull => -1
  | .vnum a, .vnum b => if dir = .asc then a - b else b - a
  | .vstr a, .vstr b =>
      match dp a, dp b with
      | some at_, some bt => if dir = .asc then at_ - bt else bt - at_
      | _, _ => cmpFallback dir (.vstr a) (.vstr b)
  | av, bv => cmpFallback dir av bv

/-- Stable insertion step: place `x` before the first element `y` with
`le x y`.  For the boolean relation `le a b := cmp a b ≤ 0` this realises
JS `Array.prototype.sort`'s output on a consistent comparator. -/
def insertLe (le : α → α → Bool) (x : α) : List α → List α
  | [] => [x]
  | y :: ys => if le x y then x :: y :: ys else y :: insertLe le x ys

/-- Stable sort by the boolean relation `le` (insertion sort). -/
def sortByLe (le : α → α → Bool) : List α → List α
  | [] => []
  | x :: xs => insertLe le x (sortByLe le xs)

/-- The record type of `UsersTable.tsx` (`UserRow`).  Optional/nullable
TS fields become `Option`; `undefined` and `null` are both `none` (the
source only ever distinguishes them via `== null` / `?? `). -/
structure UserRow where
  id : String
  clerkUserId : String
  email : String
  firstName : Option String := none
  lastName : Option String := none
  imageUrl : Option String := none
  inspectionCount : Option Int := none
  monthlyInspectionCount : Option Int := none
  lastResetDate : Option String := none
  isActive : Option Bool := none
  createdAt : Option String := none
  updatedAt : Option String := none
deriving DecidableEq, Repr

/-- `keyof UserRow`: the keys a sort can use. -/
inductive SortKey
  | id
  | clerkUserId
  | email
  | firstName
  | lastName
  | imageUrl
  | inspectionCount
  | monthlyInspectionCount
  | lastResetDate
  | isActive
  | createdAt
  | updatedAt
deriving DecidableEq, Repr

/-- A nullable string field as a `Value`. -/
def valOfStr : Option String → Value
  | none => .vnull
  | some s => .vstr s

/-- A nullable number field as a `Value`. -/
def valOfInt : Option Int → Value
  | none => .vnull
  | some n => .vnum n

/-- A nullable boolean field as a `Value`. -/
def valOfBool : Option Bool → Value
  | none => .vnull
  | some b => .vbool b

/-- `r[sortKey]` of the source. -/
def getField : SortKey → UserRow → Value
  | .id, r => .vstr r.id
  | .clerkUserId, r => .vstr r.clerkUserId
  | .email, r => .vstr r.email
  | .firstName, r => valOfStr r.firstName
  | .lastName, r => valOfStr r.lastName
  | .imageUrl, r => valOfStr r.imageUrl
  | .inspectionCount, r => valOfInt r.inspectionCount
  | .monthlyInspectionCount, r => valOfInt r.monthlyInspectionCount
  | .lastResetDate, r => valOfStr r.lastResetDate
  | .isActive, r => valOfBool r.isActive
  | .createdAt, r => valOfStr r.createdAt
  | .updatedAt, r => valOfStr r.updatedAt

/-- Boolean form of "the comparator does not put `a` after `b`". -/
def leRow (dp : String → Option Int) (dir : SortDir) (key : SortKey)
    (a b : UserRow) : Bool :=
  decide (cmpValue dp dir (getField key a) (getField key b) ≤ 0)

/-- `[...base].sort(comparator)` of `UsersTable.tsx` line 242. -/
def sortRows (dp : String → Option Int) (dir : SortDir) (key : SortKey)
    (rows : List UserRow) : List UserRow :=
  sortByLe (leRow dp dir key) rows

/-- Boolean "is `needle` a prefix of `hay`" on character lists. -/
def isPrefixB : List Char → List Char → Bool
  | [], _ => true
  | _ :: _, [] => false
  | a :: as, b :: bs => a == b && isPrefixB as bs

/-- Boolean "is `needle` a contiguous sublist of `hay`": JS
`String.prototype.includes` on the character lists. -/
def isInfixB (needle : List Char) : List Char → Bool
  | [] => isPrefixB needle []
  | c :: rest => isPrefixB needle (c :: rest) || isInfixB needle rest

/-- JS `hay.includes(needle)`. -/
def strIncludes (hay needle : String) : Bool :=
  isInfixB needle.toList hay.toList

/-- The `activeTab` state of `UsersTable.tsx` (`"all" | "active" | "inactive"`). -/
inductive Tab
  | all
  | active
  | inactive
deriving DecidableEq, Repr

/-- The tab filter (`tabFiltered` memo, lines 222-226): `r.isActive` is
truthy exactly when it is `some true`. -/
def tabFiltered (t : Tab) (rows : List UserRow) : List UserRow :=
  match t with
  | .all => rows
  | .active => rows.filter (fun r => r.isActive = some true)
  | .inactive => rows.filter (fun r => ¬ (r.isActive = some true))

/-- One row's match against the trimmed lowercased query (lines 232-239). -/
def matchesQuery (q : String) (r : UserRow) : Bool :=
  let name := trimStr (r.firstName.getD "" ++ " " ++ r.lastName.getD "")
  strIncludes (toLowerStr r.email) q || strIncludes (toLowerStr name) q ||
    strIncludes (toLowerStr r.clerkUserId) q

/-- The free-text filter (lines 230-240): empty trimmed query keeps the
list as is. -/
def queryFiltered (query : String) (rows : List UserRow) : List UserRow :=
  let q := toLowerStr (trimStr query)
  if q = "" then rows else rows.filter (matchesQuery q)

/-- Full component-local state of `UsersTable.tsx` (the `useState` cells). -/
structure TableState where
  rows : List UserRow
  loading : Bool
  error : Option String
  query : String
  sortKey : SortKey
  sortDir : SortDir
  page : Nat
  pageSize : Nat
  refreshing : Bool
  activeTab : Tab
deriving DecidableEq, Repr

/-- Initial state on mount (lines 181-190). -/
def initState : TableState :=
  { rows := [], loading := true, error := none, query := "",
    sortKey := .createdAt, sortDir := .desc, page := 1, pageSize := 10,
    refreshing := false, activeTab := .all }

/-- The `filtered` memo (lines 229-262): tab filter, then query filter,
then sort. `dp` models `Date.parse`. -/
def filteredOf (dp : String → Option Int) (s : TableState) : List UserRow :=
  sortRows dp s.sortDir s.sortKey (queryFiltered s.query (tabFiltered s.activeTab s.rows))

/-- `pageCount = Math.max(1, Math.ceil(filtered.length / pageSize))`
(line 265); for `pageSize > 0` the ceiling is `(len + pageSize - 1) / pageSize`. -/
def pageCount (dp : String → Option Int) (s : TableState) : Nat :=
  max 1 (((filteredOf dp s).length + s.pageSize - 1) / s.pageSize)

/-- The `paged` memo (lines 266-269): `filtered.slice(start, start + pageSize)`. -/
def pagedOf (dp : String → Option Int) (s : TableState) : List UserRow :=
  ((filteredOf dp s).drop ((s.page - 1) * s.pageSize)).take s.pageSize

/-- `next = !(row.isActive ?? false)` in `onToggleActive` (line 319). -/
def toggleNext (row : UserRow) : Bool :=
  !(row.isActive.getD false)

/-- The optimistic update of `onToggleActive` (line 320). -/
def optimisticToggle (row : UserRow) (rows : List UserRow) : List UserRow :=
  rows.map fun r =>
    if r.id = row.id then { r with isActive := some (toggleNext row) } else r

/-- The rollback of `onToggleActive` on PATCH failure (line 324):
`isActive` is set back to the captured `row.isActive`. -/
def rollbackToggle (row : UserRow) (rows : List UserRow) : List UserRow :=
  rows.map fun r =>
    if r.id = row.id then { r with isActive := row.isActive } else r

/-- The optimistic update of `onResetMonthly` (lines 331-337): zero the
monthly count and stamp `lastResetDate` with the current time `now`. -/
def optimisticReset (row : UserRow) (now : String) (rows : List UserRow) : List UserRow :=
  rows.map fun r =>
    if r.id = row.id then
      { r with monthlyInspectionCount := some 0, lastResetDate := some now }
    else r

/-- The rollback of `onResetMonthly` on PATCH failure (line 341): only
`monthlyInspectionCount` is restored (to `row.monthlyInspectionCount ?? 0`);
`lastResetDate` is left as the optimistic timestamp. -/
def rollbackReset (row : UserRow) (rows : List UserRow) : List UserRow :=
  rows.map fun r =>
    if r.id = row.id then
      { r with monthlyInspectionCount := some (row.monthlyInspectionCount.getD 0) }
    else r

/-- The externally observable operations of the users table.  `loadSuccess`
and `loadFailure` are the two continuations of `refresh` after its `await`
(lines 296-304), applied at response-completion time; the mutation
operations are the settled composite of optimistic update and, on failure
(`ok = false`), rollback. -/
inductive Op
  | setQuery (q : String)
  | setTab (t : Tab)
  | setPageSize (n : Nat)
  | toggleSort (k : SortKey)
  | goFirst
  | goPrev
  | goNext
  | goLast
  | loadSuccess (data : List UserRow)
  | loadFailure (msg : String)
  | toggleActive (row : UserRow) (ok : Bool)
  | resetMonthly (row : UserRow) (now : String) (ok : Bool)
deriving DecidableEq, Repr

/-- Toggle of the sort direction string. -/
def flipDir : SortDir → SortDir
  | .asc => .desc
  | .desc => .asc

/-- One settled state transition.  The page-reset effect
(`useEffect(() => setPage(1), [query, pageSize, activeTab])`, lines
348-350) runs exactly when the dependency actually changes between
renders, so a setter invoked with the current value is a no-op. -/
def applyOp (dp : String → Option Int) (op : Op) (s : TableState) : TableState :=
  match op with
  | .setQuery q => if q = s.query then s else { s with query := q, page := 1 }
  | .setTab t => if t = s.activeTab then s else { s with activeTab := t, page := 1 }
  | .setPageSize n => if n = s.pageSize then s else { s with pageSize := n, page := 1 }
  | .toggleSort k =>
      if k = s.sortKey then { s with sortDir := flipDir s.sortDir }
      else { s with sortKey := k, sortDir := .asc }
  | .goFirst => { s with page := 1 }
  | .goPrev => { s with page := max 1 (s.page - 1) }
  | .goNext => { s with page := min (pageCount dp s) (s.page + 1) }
  | .goLast => { s with page := pageCount dp s }
  | .loadSuccess data => { s with rows := data, error := none, refreshing := false }
  | .loadFailure msg => { s with error := some msg, refreshing := false }
  | .toggleActive row ok =>
      { s with rows :=
          if ok then optimisticToggle row s.rows
          else rollbackToggle row (optimisticToggle row s.rows) }
  | .resetMonthly row now ok =>
      { s with rows :=
          if ok then optimisticReset row now s.rows
          else rollbackReset row (optimisticReset row now s.rows) }

/-- Fold a sequence of settled operations over the state. -/
def applyOps (dp : String → Option Int) (ops : List Op) (s : TableState) : TableState :=
  ops.foldl (fun t op => applyOp dp op t) s

/-- The error message `refresh` builds for a non-success HTTP status
(line 296). -/
def loadErrorMessage (status : Nat) : String :=
  "Failed to load users (" ++ toString status ++ ")"

/-- `replaceAll('"', '""')` on the characters of a stringified value. -/
def doubleQuotes : List Char → List Char
  | [] => []
  | c :: cs => if c = '"' then '"' :: '"' :: doubleQuotes cs else c :: doubleQuotes cs

/-- One CSV cell of `toCsv` in `UsersTable.tsx` (lines 152-153): double
the quotes, then wrap in quotes only when the doubled text contains a
comma. -/
def usersCsvCell (v : List Char) : List Char :=
  let d := doubleQuotes v
  if ',' ∈ d then '"' :: (d ++ ['"']) else d

/-- One CSV cell of `onExportCSV` in `AdminInspectionsPanel.tsx`
(line 206): double the quotes and always wrap in quotes. -/
def adminCsvCell (v : List Char) : List Char :=
  '"' :: (doubleQuotes v ++ ['"'])

/-- The stringified field values of one row of `toCsv` (lines 139-151). -/
def usersCsvFields (r : UserRow) : List String :=
  [r.id, r.clerkUserId, r.email, r.firstName.getD "", r.lastName.getD "",
   toString (r.inspectionCount.getD 0), toString (r.monthlyInspectionCount.getD 0),
   r.lastResetDate.getD "", if r.isActive.getD false then "true" else "false",
   r.createdAt.getD "", r.updatedAt.getD ""]

/-- One data line of `toCsv`: escape each cell, join with commas. -/
def usersCsvLine (r : UserRow) : String :=
  String.intercalate ","
    ((usersCsvFields r).map fun f => String.mk (usersCsvCell f.toList))

/-- The header line of `toCsv` (lines 123-137). -/
def usersCsvHeader : String :=
  String.intercalate ","
    ["id", "clerkUserId", "email", "firstName", "lastName", "inspectionCount",
     "monthlyInspectionCount", "lastResetDate", "isActive", "createdAt", "updatedAt"]

/-- The `csvRows` list of `toCsv` (lines 136-156): header line followed by
one line per exported record. -/
def usersCsvLines (rows : List UserRow) : List String :=
  usersCsvHeader :: rows.map usersCsvLine

/-- `toCsv` (line 157): join the lines with newlines. -/
def toCsv (rows : List UserRow) : String :=
  String.intercalate "\n" (usersCsvLines rows)

/-- `exportCsv` (line 346) serializes `filtered` — the full
filtered-and-sorted set, not the `paged` slice. -/
def usersExportLines (dp : String → Option Int) (s : TableState) : List String :=
  usersCsvLines (filteredOf dp s)

/-- Record type of `AdminInspectionsPanel.tsx` (`AdminInspectionRow`),
restricted to the fields its CSV export touches. -/
structure AdminRow where
  id : String
  createdAt : String
  userId : String
  hazardCount : Option Int := none
  riskScore : Option Int := none
  safetyGrade : Option String := none
  processingStatus : String := "pending"
  userEmail : Option String := none
deriving DecidableEq, Repr

/-- Panel state relevant to export: `rows` holds only the currently
fetched server page, `total` the collection-wide count. -/
structure AdminState where
  rows : List AdminRow
  total : Nat
  page : Nat
  pageSize : Nat
  error : Option String
deriving DecidableEq, Repr

/-- Initial admin panel state (lines 119-123, default `pageSize = 20`). -/
def adminInitState : AdminState :=
  { rows := [], total := 0, page := 1, pageSize := 20, error := none }

/-- The success continuation of `fetchAll` (lines 150-151): store the
returned page of inspections and the collection-wide total. -/
def adminFetchSuccess (inspections : List AdminRow) (total : Nat)
    (s : AdminState) : AdminState :=
  { s with rows := inspections, total := total, error := none }

/-- Field values of one exported admin row (lines 197-206); `isoOf`
abstracts `new Date(-).toISOString()`. -/
def adminCsvFields (isoOf : String → String) (r : AdminRow) : List String :=
  [r.id, isoOf r.createdAt, r.userEmail.getD "", r.userId,
   (match r.hazardCount with | none => "" | some n => toString n),
   (match r.riskScore with | none => "" | some n => toString n),
   r.safetyGrade.getD "", r.processingStatus]

/-- One data line of the admin CSV export. -/
def adminCsvLine (isoOf : String → String) (r : AdminRow) : String :=
  String.intercalate ","
    ((adminCsvFields isoOf r).map fun f => String.mk (adminCsvCell f.toList))

/-- The lines of the admin CSV export (lines 194-208): header plus one
line per row of the *currently fetched page* (`rows`), not of the whole
collection. -/
def adminCsvLines (isoOf : String → String) (s : AdminState) : List String :=
  String.intercalate ","
      ["id", "createdAt", "userEmail", "userId", "hazardCount", "riskScore",
       "safetyGrade", "processingStatus"]
    :: s.rows.map (adminCsvLine isoOf)

/-- A completed `refresh` network response, in completion order: `ok` runs
lines 297-299 (`setRows`, `setError(null)`), `fail` runs line 301. -/
inductive LoadEvent
  | ok (data : List UserRow)
  | fail (msg : String)
deriving DecidableEq, Repr

/-- A load completion as a state transition. -/
def LoadEvent.toOp : LoadEvent → Op
  | .ok data => .loadSuccess data
  | .fail msg => .loadFailure msg

/-- Apply load completions in the order the responses resolve: the code
keeps no sequence number, so every response is applied unconditionally. -/
def runLoads (dp : String → Option Int) (evs : List LoadEvent) (s : TableState) :
    TableState :=
  applyOps dp (evs.map LoadEvent.toOp) s

/-- Data of the last successful response in the list, if any. -/
def lastOkData : List LoadEvent → Option (List UserRow)
  | [] => none
  | .ok d :: rest => some ((lastOkData rest).getD d)
  | .fail _ :: rest => lastOkData rest

/-- Model of `Date.parse` on the non-date strings appearing in the
concrete examples below (`"a"`, `"b"`, names, emails): all of them parse
to `NaN`. -/
def dpNone : String → Option Int := fun _ => none

/-- Record `{id: 1, name: "b"}` of the sort tie-break example (the `name`
column is `firstName`). -/
def nameRowB : UserRow :=
  { id := "1", clerkUserId := "u1", email := "b@x", firstName := some "b" }

/-- Record `{id: 2, name: null}` of the sort tie-break example. -/
def nameRowNull : UserRow :=
  { id := "2", clerkUserId := "u2", email := "n@x", firstName := none }

/-- Record `{id: 3, name: "a"}` of the sort tie-break example. -/
def nameRowA : UserRow :=
  { id := "3", clerkUserId := "u3", email := "a@x", firstName := some "a" }

/-- Eleven records with distinct ids: two pages at the default page size
of 10. -/
def elevenRows : List UserRow :=
  (List.range 11).map fun n =>
    { id := toString n, clerkUserId := toString n, email := toString n }

/-- A sample inspection record for the admin export counterexample. -/
def sampleInspection : AdminRow :=
  { id := "i21", createdAt := "2024-01-01T00:00:00.000Z", userId := "u1",
    processingStatus := "completed" }

/-- The record of the rollback counterexample: monthly count 5, last
reset on 2024-01-01. -/
def resetRow : UserRow :=
  { id := "u1", clerkUserId := "u1", email := "u1@x",
    monthlyInspectionCount := some 5,
    lastResetDate := some "2024-01-01T00:00:00.000Z" }

/-- The §3 page invariant: `page ∈ [1, pageCount]`, positive page size. -/
def PageInv (dp : String → Option Int) (s : TableState) : Prop :=
  1 ≤ s.page ∧ s.page ≤ pageCount dp s ∧ 0 < s.pageSize

/-- The pure view operations (filter / sort / page / page-size
transitions, with the positive page sizes the UI offers); loads and
mutations are excluded. -/
def isViewOp : Op → Bool
  | .setQuery _ => true
  | .setTab _ => true
  | .setPageSize n => decide (0 < n)
  | .toggleSort _ => true
  | .goFirst => true
  | .goPrev => true
  | .goNext => true
  | .goLast => true
  | .loadSuccess _ => false
  | .loadFailure _ => false
  | .toggleActive _ _ => false
  | .resetMonthly _ _ _ => false

theorem mem_insertLe (le : α → α → Bool) (x : α) (l : List α) (a : α) :
    a ∈ insertLe le x l ↔ a = x ∨ a ∈ l := by
  induction l with
  | nil => simp [insertLe]
  | cons y ys ih =>
      by_cases h : le x y = true
      · simp [insertLe, h]
      · simp only [insertLe, h, if_neg, Bool.not_eq_true] at *
        simp [List.mem_cons, ih]
        tauto

theorem length_insertLe (le : α → α → Bool) (x : α) (l : List α) :
    (insertLe le x l).length = l.length + 1 := by
  induction l with
  | nil => rfl
  | cons y ys ih =>
      by_cases h : le x y = true
      · simp [insertLe, h]
      · simp [insertLe, h, ih]

theorem length_sortByLe (le : α → α → Bool) (l : List α) :
    (sortByLe le l).length = l.length := by
  induction l with
  | nil => rfl
  | cons x xs ih => simp [sortByLe, length_insertLe, ih]

/-- If `le` sends a `P`-element before another element exactly when that
element is also `P`, and sends every non-`P` element before every
`P`-element, then inserting preserves "all `P`-elements form a suffix". -/
theorem insertLe_pairwise_suffix (le : α → α → Bool) (P : α → Bool)
    (h1 : ∀ a b, P a = true → (le a b = true ↔ P b = true))
    (h2 : ∀ a b, P a = false → P b = true → le a b = true)
    (x : α) (l : List α)
    (hl : l.Pairwise (fun a b => P a = true → P b = true)) :
    (insertLe le x l).Pairwise (fun a b => P a = true → P b = true) := by
  induction l with
  | nil => simp [insertLe]
  | cons y ys ih =>
      rcases List.pairwise_cons.mp hl with ⟨hy, hys⟩
      by_cases h : le x y = true
      · rw [show insertLe le x (y :: ys) = x :: y :: ys from by simp [insertLe, h]]
        have hxy : P x = true → P y = true := fun hx => (h1 x y hx).mp h
        refine List.pairwise_cons.mpr ⟨?_, hl⟩
        intro z hz
        rcases List.mem_cons.mp hz with rfl | hz'
        · exact hxy
        · exact fun hx => hy z hz' (hxy hx)
      · rw [show insertLe le x (y :: ys) = y :: insertLe le x ys from by
          simp [insertLe, h]]
        refine List.pairwise_cons.mpr ⟨?_, ih hys⟩
        intro z hz
        rcases (mem_insertLe le x ys z).mp hz with hzx | hz'
        · intro hPy
          by_contra hPz
          have hPx : P x = false := by
            rw [hzx] at hPz
            exact Bool.eq_false_iff.mpr hPz
          exact h (h2 x y hPx hPy)
        · exact hy z hz'

/-- In `sortByLe le l` all `P`-elements form a suffix, for `le` as in
`insertLe_pairwise_suffix`. -/
theorem sortByLe_pairwise_suffix (le : α → α → Bool) (P : α → Bool)
    (h1 : ∀ a b, P a = true → (le a b = true ↔ P b = true))
    (h2 : ∀ a b, P a = false → P b = true → le a b = true)
    (l : List α) :
    (sortByLe le l).Pairwise (fun a b => P a = true → P b = true) := by
  induction l with
  | nil => exact List.Pairwise.nil
  | cons x xs ih => exact insertLe_pairwise_suffix le P h1 h2 x (sortByLe le xs) ih

theorem cmpValue_null_left (dp : String → Option Int) (dir : SortDir)
    (bv : Value) (hb : bv ≠ .vnull) : cmpValue dp dir .vnull bv = 1 := by
  cases bv with
  | vnull => exact absurd rfl hb
  | vnum n => rfl
  | vstr s => rfl
  | vbool b => rfl

theorem cmpValue_null_right (dp : String → Option Int) (dir : SortDir)
    (av : Value) (ha : av ≠ .vnull) : cmpValue dp dir av .vnull = -1 := by
  cases av with
  | vnull => exact absurd rfl ha
  | vnum n => rfl
  | vstr s => rfl
  | vbool b => rfl

/-- Null-keyed rows form a suffix of the sorted output, for every
direction and every model of `Date.parse`. -/
theorem sortRows_nulls_last (dp : String → Option Int) (dir : SortDir)
    (key : SortKey) (l : List UserRow) :
    (sortRows dp dir key l).Pairwise
      (fun a b => getField key a = Value.vnull → getField key b = Value.vnull) := by
  have h := sortByLe_pairwise_suffix (leRow dp dir key)
      (fun r => decide (getField key r = Value.vnull))
      (by
        intro a b ha
        have ha' : getField key a = Value.vnull := of_decide_eq_true ha
        by_cases hb : getField key b = Value.vnull
        · simp [leRow, ha', hb, cmpValue]
        · simp [leRow, ha', cmpValue_null_left dp dir _ hb, hb]
      )
      (by
        intro a b ha hb
        have ha' : ¬ getField key a = Value.vnull := of_decide_eq_false ha
        have hb' : getField key b = Value.vnull := of_decide_eq_true hb
        simp [leRow, hb', cmpValue_null_right dp dir _ ha']
      ) l
  refine h.imp ?_
  intro a b hab ha
  exact of_decide_eq_true (hab (decide_eq_true ha))

theorem comma_mem_doubleQuotes (l : List Char) :
    (',' ∈ doubleQuotes l) ↔ (',' ∈ l) := by
  induction l with
  | nil => simp [doubleQuotes]
  | cons c cs ih =>
      by_cases h : c = '"'
      · subst h
        have hne : (',' : Char) ≠ '"' := by decide
        simp [doubleQuotes, List.mem_cons, ih, hne]
      · simp only [doubleQuotes, if_neg h, List.mem_cons, ih]

/-- C5: sorting places null/absent values last regardless of direction
(for every model of `Date.parse`, every key, every list); the records
`[{id:1,name:"b"},{id:2,name:null},{id:3,name:"a"}]` sorted ascending by
name yield the id order `[3,1,2]`, and sorted descending they yield
`[1,3,2]`, so id 2 is last both ways. -/
theorem C5_sort_nulls_last_and_example (dp : String → Option Int)
    (dir : SortDir) (key : SortKey) (l : List UserRow) :
    (sortRows dp dir key l).Pairwise
        (fun a b => getField key a = Value.vnull → getField key b = Value.vnull)
      ∧ (sortRows dpNone .asc .firstName
            [nameRowB, nameRowNull, nameRowA]).map UserRow.id = ["3", "1", "2"]
      ∧ (sortRows dpNone .desc .firstName
            [nameRowB, nameRowNull, nameRowA]).map UserRow.id = ["1", "3", "2"] :=
  ⟨sortRows_nulls_last dp dir key l, by decide, by decide⟩

/-- C6: in both CSV serializers every cell has its embedded quotes
doubled, and a value containing a comma is wrapped in quotes; the value
`He said "hi", once` serializes as `"He said ""hi"", once"` in both. -/
theorem C6_csv_escaping (l : List Char) (h : ',' ∈ l) :
    usersCsvCell l = '"' :: (doubleQuotes l ++ ['"'])
      ∧ adminCsvCell l = '"' :: (doubleQuotes l ++ ['"'])
      ∧ String.mk (usersCsvCell ("He said \"hi\", once").toList)
          = "\"He said \"\"hi\"\", once\""
      ∧ String.mk (adminCsvCell ("He said \"hi\", once").toList)
          = "\"He said \"\"hi\"\", once\"" := by
  refine ⟨?_, rfl, by decide, by decide⟩
  simp [usersCsvCell, (comma_mem_doubleQuotes l).mpr h]

/-- Witness for C6 at the spec's example value. -/
theorem C6_csv_escaping_witness :
    (',' ∈ ("He said \"hi\", once").toList)
      ∧ usersCsvCell ("He said \"hi\", once").toList
          = '"' :: (doubleQuotes ("He said \"hi\", once").toList ++ ['"']) := by
  have h : ',' ∈ ("He said \"hi\", once").toList := by decide
  exact ⟨h, (C6_csv_escaping _ h).1⟩

/-- C10: the users-table CSV cell is wrapped in quotes exactly when the
(quote-doubled) value contains a comma; a value with quotes but no comma
is emitted with doubled quotes and no surrounding wrap, e.g.
`He said "hi"` becomes `He said ""hi""`. -/
theorem C10_users_csv_wrap_iff_comma (l : List Char) :
    usersCsvCell l
        = (if ',' ∈ l then '"' :: (doubleQuotes l ++ ['"']) else doubleQuotes l)
      ∧ usersCsvCell ("He said \"hi\"").toList = ("He said \"\"hi\"\"").toList := by
  refine ⟨?_, by decide⟩
  simp only [usersCsvCell, comma_mem_doubleQuotes]

/-- C4: a failing load stores the error message and leaves the previously
loaded items untouched, and the controller stays usable: a later
successful load replaces the items and clears the error.  The message
built for a non-success status is never empty. -/
theorem C4_load_failure_stale_items (dp : String → Option Int)
    (s : TableState) (msg : String) (d : List UserRow) (status : Nat) :
    (applyOp dp (.loadFailure msg) s).rows = s.rows
      ∧ (applyOp dp (.loadFailure msg) s).error = some msg
      ∧ (applyOp dp (.loadSuccess d) (applyOp dp (.loadFailure msg) s)).rows = d
      ∧ (applyOp dp (.loadSuccess d) (applyOp dp (.loadFailure msg) s)).error = none
      ∧ loadErrorMessage status ≠ "" := by
  refine ⟨rfl, rfl, rfl, rfl, ?_⟩
  intro h
  have hlen := congrArg String.length h
  simp [loadErrorMessage, String.length_append] at hlen
  exact absurd hlen.1.1 (by decide)

/-- C2 counterexample: two overlapping `refresh` calls where the
first-issued response (data `[]`) completes after the second-issued one
(data `[nameRowA]`).  The code applies every completion unconditionally,
so the final items are the first call's data, not the second's. -/
theorem C2_stale_overwrites_counterexample :
    (runLoads dpNone [LoadEvent.ok [nameRowA], LoadEvent.ok []] initState).rows = []
      ∧ ([] : List UserRow) ≠ [nameRowA] :=
  ⟨by decide, by decide⟩

/-- C2 amended: with no sequence-number discipline in the code, the items
after any sequence of load completions are the data of the *last
completed* successful response (or the prior items if none succeeded) —
completion order wins, not issue order. -/
theorem C2_last_completed_response_wins (dp : String → Option Int)
    (evs : List LoadEvent) (s : TableState) :
    (runLoads dp evs s).rows = (lastOkData evs).getD s.rows := by
  induction evs generalizing s with
  | nil => rfl
  | cons e rest ih =>
      have hstep : runLoads dp (e :: rest) s
          = runLoads dp rest (applyOp dp e.toOp s) := by
        simp [runLoads, applyOps]
      cases e with
      | ok d =>
          rw [hstep, ih]
          simp [lastOkData, LoadEvent.toOp, applyOp]
      | fail m =>
          rw [hstep, ih]
          simp [lastOkData, LoadEvent.toOp, applyOp]

/-- C9: the visible-rows projection is a pure function of the items plus
the view parameters (`query`, `activeTab`, `sortKey`, `sortDir`, `page`,
`pageSize`): two states agreeing on those produce identical filtered sets
and identical page slices, so recomputing with no intervening state
change returns identical output and the projection reads nothing else. -/
theorem C9_visible_rows_pure_projection (dp : String → Option Int)
    (s t : TableState) (hrows : s.rows = t.rows) (hq : s.query = t.query)
    (htab : s.activeTab = t.activeTab) (hk : s.sortKey = t.sortKey)
    (hd : s.sortDir = t.sortDir) (hp : s.page = t.page)
    (hps : s.pageSize = t.pageSize) :
    filteredOf dp s = filteredOf dp t ∧ pagedOf dp s = pagedOf dp t := by
  have hf : filteredOf dp s = filteredOf dp t := by
    simp only [filteredOf, hrows, hq, htab, hk, hd]
  exact ⟨hf, by simp only [pagedOf, hf, hp, hps]⟩

/-- Witness: two states equal on the view inputs but differing in
`loading`, `error` and `refreshing` yield the same page slice. -/
theorem C9_visible_rows_pure_projection_witness :
    pagedOf dpNone initState
      = pagedOf dpNone
          { initState with loading := false, refreshing := true, error := some "boom" } :=
  (C9_visible_rows_pure_projection dpNone _ _ rfl rfl rfl rfl rfl rfl rfl).2

/-- C8 counterexample: from a loaded two-page state sitting on page 2,
calling `setPageSize` with the value already in state (10) leaves `page`
at 2 — the reset effect `useEffect(() => setPage(1), [query, pageSize,
activeTab])` only fires when a dependency changes between renders. -/
theorem C8_same_value_setter_counterexample :
    (applyOps dpNone [Op.loadSuccess elevenRows, Op.goNext, Op.setPageSize 10]
        initState).page = 2 := by
  decide

/-- C8 amended: calling `setQuery`, `setFilterTag` (tab) or `setPageSize`
with a value *different* from the current one resets `page` to 1 whatever
its prior value; a call passing the value already in state leaves the
whole state unchanged. -/
theorem C8_changed_setter_resets_page (dp : String → Option Int)
    (s : TableState) (q : String) (t : Tab) (n : Nat)
    (hq : q ≠ s.query) (ht : t ≠ s.activeTab) (hn : n ≠ s.pageSize) :
    (applyOp dp (.setQuery q) s).page = 1
      ∧ (applyOp dp (.setTab t) s).page = 1
      ∧ (applyOp dp (.setPageSize n) s).page = 1
      ∧ applyOp dp (.setQuery s.query) s = s
      ∧ applyOp dp (.setTab s.activeTab) s = s
      ∧ applyOp dp (.setPageSize s.pageSize) s = s := by
  refine ⟨?_, ?_, ?_, ?_, ?_, ?_⟩ <;> simp [applyOp, hq, ht, hn]

/-- Witness for C8 amended at concrete changed values. -/
theorem C8_changed_setter_resets_page_witness :
    (applyOp dpNone (Op.setQuery "x") initState).page = 1 :=
  (C8_changed_setter_resets_page dpNone initState "x" Tab.active 20
    (by decide) (by decide) (by decide)).1

/-- C7 counterexample: in the admin panel the collection holds 21 records
(`total = 21`) but page 2 at page size 20 fetched a single row; the CSV
export emits 1 data row, not 21 — it serializes only the current page. -/
theorem C7_admin_export_counterexample :
    ((adminCsvLines id (adminFetchSuccess [sampleInspection] 21
        { adminInitState with page := 2 })).length - 1 = 1)
      ∧ (adminFetchSuccess [sampleInspection] 21
          { adminInitState with page := 2 }).total = 21
      ∧ (1 : Nat) ≠ 21 :=
  ⟨by decide, by decide, by decide⟩

/-- C7 amended: the users-table export serializes the entire
filtered-and-sorted set — one data line per filtered record, with the
filtered set independent of `page` and `pageSize` — while the admin-panel
export serializes only the currently fetched server page: one data line
per fetched row, which can be fewer than `total`. -/
theorem C7_users_export_all_admin_export_page (dp : String → Option Int)
    (s : TableState) (p ps : Nat) (a : AdminState) (isoOf : String → String) :
    (usersExportLines dp s).length = (filteredOf dp s).length + 1
      ∧ filteredOf dp { s with page := p, pageSize := ps } = filteredOf dp s
      ∧ (adminCsvLines isoOf a).length = a.rows.length + 1 := by
  refine ⟨?_, rfl, ?_⟩ <;> simp [usersExportLines, usersCsvLines, adminCsvLines]

/-- C1 counterexample: a failing `onResetMonthly` mutation does not
revert the record to its pre-mutation snapshot — `monthlyInspectionCount`
is restored but `lastResetDate` keeps the optimistic timestamp, so the
visible rows differ from the originals after the rejection settles. -/
theorem C1_reset_rollback_counterexample :
    ((applyOp dpNone (Op.resetMonthly resetRow "2025-06-01T00:00:00.000Z" false)
        { initState with rows := [resetRow] }).rows.map UserRow.lastResetDate
      = [some "2025-06-01T00:00:00.000Z"])
      ∧ (applyOp dpNone (Op.resetMonthly resetRow "2025-06-01T00:00:00.000Z" false)
          { initState with rows := [resetRow] }).rows ≠ [resetRow] :=
  ⟨by decide, by decide⟩

theorem optimisticToggle_visible (row : UserRow) (l : List UserRow) :
    ∀ r ∈ optimisticToggle row l,
      r.id = row.id → r.isActive = some (toggleNext row) := by
  intro r hr hid
  unfold optimisticToggle at hr
  rcases List.mem_map.mp hr with ⟨r0, _, rfl⟩
  by_cases hc : r0.id = row.id
  · rw [if_pos hc]
  · rw [if_neg hc] at hid
    exact absurd hid hc

theorem optimisticReset_visible (row : UserRow) (now : String) (l : List UserRow) :
    ∀ r ∈ optimisticReset row now l,
      r.id = row.id →
        r.monthlyInspectionCount = some 0 ∧ r.lastResetDate = some now := by
  intro r hr hid
  unfold optimisticReset at hr
  rcases List.mem_map.mp hr with ⟨r0, _, rfl⟩
  by_cases hc : r0.id = row.id
  · rw [if_pos hc]
    exact ⟨rfl, rfl⟩
  · rw [if_neg hc] at hid
    exact absurd hid hc

theorem rollback_optimistic_toggle (row : UserRow) (l : List UserRow)
    (h : ∀ r ∈ l, r.id = row.id → r = row) :
    rollbackToggle row (optimisticToggle row l) = l := by
  unfold rollbackToggle optimisticToggle
  rw [List.map_map]
  have hcong : ∀ r ∈ l,
      ((fun r => if r.id = row.id then { r with isActive := row.isActive } else r)
        ∘ fun r =>
            if r.id = row.id then { r with isActive := some (toggleNext row) }
            else r) r = id r := by
    intro r hr
    by_cases hc : r.id = row.id
    · have hre := h r hr hc
      subst hre
      simp
    · simp [Function.comp, if_neg hc]
  rw [List.map_congr_left hcong, List.map_id]

theorem rollback_optimistic_reset (row : UserRow) (now : String) (l : List UserRow)
    (h : ∀ r ∈ l, r.id = row.id → r = row) :
    rollbackReset row (optimisticReset row now l)
      = l.map fun r =>
          if r.id = row.id then
            { row with
                monthlyInspectionCount := some (row.monthlyInspectionCount.getD 0),
                lastResetDate := some now }
          else r := by
  unfold rollbackReset optimisticReset
  rw [List.map_map]
  refine List.map_congr_left ?_
  intro r hr
  by_cases hc : r.id = row.id
  · have hre := h r hr hc
    subst hre
    simp
  · simp [Function.comp, if_neg hc]

/-- C1 amended: both mutations make the optimistic value visible
immediately; on failure `onToggleActive` reverts the rows exactly to the
pre-mutation list, while `onResetMonthly` restores only
`monthlyInspectionCount` (coalescing a null snapshot to 0) and keeps the
optimistic `lastResetDate` timestamp.  The hypothesis says records
sharing the mutated id equal the captured snapshot (ids are unique). -/
theorem C1_mutate_optimistic_and_rollback (dp : String → Option Int)
    (s : TableState) (row : UserRow) (now : String)
    (hid : ∀ r ∈ s.rows, r.id = row.id → r = row) :
    (∀ r ∈ (applyOp dp (.toggleActive row true) s).rows,
        r.id = row.id → r.isActive = some (toggleNext row))
      ∧ (∀ r ∈ (applyOp dp (.resetMonthly row now true) s).rows,
          r.id = row.id →
            r.monthlyInspectionCount = some 0 ∧ r.lastResetDate = some now)
      ∧ (applyOp dp (.toggleActive row false) s).rows = s.rows
      ∧ (applyOp dp (.resetMonthly row now false) s).rows
          = s.rows.map fun r =>
              if r.id = row.id then
                { row with
                    monthlyInspectionCount :=
                      some (row.monthlyInspectionCount.getD 0),
                    lastResetDate := some now }
              else r := by
  refine ⟨?_, ?_, ?_, ?_⟩
  · simpa [applyOp] using optimisticToggle_visible row s.rows
  · simpa [applyOp] using optimisticReset_visible row now s.rows
  · simpa [applyOp] using rollback_optimistic_toggle row s.rows hid
  · simpa [applyOp] using rollback_optimistic_reset row now s.rows hid

/-- Witness for C1 amended: for the singleton list `[resetRow]` the
failed toggle reverts the rows exactly. -/
theorem C1_mutate_optimistic_and_rollback_witness :
    (applyOp dpNone (Op.toggleActive resetRow false)
        { initState with rows := [resetRow] }).rows = [resetRow] :=
  (C1_mutate_optimistic_and_rollback dpNone
    { initState with rows := [resetRow] } resetRow "2025-06-01T00:00:00.000Z"
    (by decide)).2.2.1

theorem one_le_pageCount (dp : String → Option Int) (s : TableState) :
    1 ≤ pageCount dp s :=
  Nat.le_max_left 1 _

theorem length_filteredOf (dp : String → Option Int) (s : TableState) :
    (filteredOf dp s).length
      = (queryFiltered s.query (tabFiltered s.activeTab s.rows)).length :=
  length_sortByLe _ _

theorem pageCount_set_page (dp : String → Option Int) (s : TableState) (p : Nat) :
    pageCount dp { s with page := p } = pageCount dp s := rfl

theorem pageCount_set_sort (dp : String → Option Int) (s : TableState)
    (k : SortKey) (d : SortDir) :
    pageCount dp { s with sortKey := k, sortDir := d } = pageCount dp s := by
  unfold pageCount
  rw [length_filteredOf, length_filteredOf]

theorem applyOp_preserves_pageInv (dp : String → Option Int) (op : Op)
    (s : TableState) (hop : isViewOp op = true) (h : PageInv dp s) :
    PageInv dp (applyOp dp op s) := by
  obtain ⟨h1, h2, h3⟩ := h
  cases op with
  | setQuery q =>
      by_cases hc : q = s.query
      · simpa [applyOp, hc] using ⟨h1, h2, h3⟩
      · simp only [applyOp, if_neg hc]
        exact ⟨Nat.le_refl 1, one_le_pageCount dp _, h3⟩
  | setTab t =>
      by_cases hc : t = s.activeTab
      · simpa [applyOp, hc] using ⟨h1, h2, h3⟩
      · simp only [applyOp, if_neg hc]
        exact ⟨Nat.le_refl 1, one_le_pageCount dp _, h3⟩
  | setPageSize n =>
      have hn : 0 < n := of_decide_eq_true hop
      by_cases hc : n = s.pageSize
      · simpa [applyOp, hc] using ⟨h1, h2, h3⟩
      · simp only [applyOp, if_neg hc]
        exact ⟨Nat.le_refl 1, one_le_pageCount dp _, hn⟩
  | toggleSort k =>
      by_cases hc : k = s.sortKey
      · have hs : applyOp dp (.toggleSort k) s
            = { s with sortKey := s.sortKey, sortDir := flipDir s.sortDir } := by
          simp [applyOp, hc]
        rw [hs]
        exact ⟨h1, le_trans h2 (pageCount_set_sort dp s _ _).ge, h3⟩
      · have hs : applyOp dp (.toggleSort k) s
            = { s with sortKey := k, sortDir := .asc } := by
          simp [applyOp, hc]
        rw [hs]
        exact ⟨h1, le_trans h2 (pageCount_set_sort dp s _ _).ge, h3⟩
  | goFirst =>
      exact ⟨Nat.le_refl 1, one_le_pageCount dp _, h3⟩
  | goPrev =>
      refine ⟨Nat.le_max_left 1 _, ?_, h3⟩
      show max 1 (s.page - 1) ≤ pageCount dp { s with page := max 1 (s.page - 1) }
      exact le_trans
        (Nat.max_le.mpr ⟨one_le_pageCount dp s, le_trans (Nat.sub_le _ _) h2⟩)
        (pageCount_set_page dp s _).ge
  | goNext =>
      refine ⟨Nat.le_min.mpr ⟨one_le_pageCount dp s, Nat.le_succ_of_le h1⟩, ?_, h3⟩
      show min (pageCount dp s) (s.page + 1)
          ≤ pageCount dp { s with page := min (pageCount dp s) (s.page + 1) }
      exact le_trans (Nat.min_le_left _ _) (pageCount_set_page dp s _).ge
  | goLast =>
      refine ⟨one_le_pageCount dp s, ?_, h3⟩
      show pageCount dp s ≤ pageCount dp { s with page := pageCount dp s }
      exact (pageCount_set_page dp s _).ge
  | loadSuccess d => simp [isViewOp] at hop
  | loadFailure m => simp [isViewOp] at hop
  | toggleActive r ok => simp [isViewOp] at hop
  | resetMonthly r now ok => simp [isViewOp] at hop

/-- C3 amended: after any sequence of filter / sort / page / page-size
operations (no loads or mutations) from a state satisfying the bounds,
`page` stays in `[1, max(1, ceil(F/pageSize))]` — the page buttons clamp
and the setter effects reset to 1.  A `load` or mutation that shrinks the
filtered count can push `page` above the bound (see the counterexample),
so those operations are excluded here. -/
theorem C3_view_ops_preserve_page_bounds (dp : String → Option Int)
    (ops : List Op) (s : TableState)
    (hops : ∀ op ∈ ops, isViewOp op = true) (h : PageInv dp s) :
    PageInv dp (applyOps dp ops s) := by
  induction ops generalizing s with
  | nil => exact h
  | cons op rest ih =>
      exact ih (applyOp dp op s)
        (fun o ho => hops o (List.mem_cons_of_mem op ho))
        (applyOp_preserves_pageInv dp op s (hops op (List.mem_cons_self op rest)) h)

/-- Witness for C3 amended on a concrete operation sequence. -/
theorem C3_view_ops_preserve_page_bounds_witness :
    PageInv dpNone
      (applyOps dpNone [Op.setQuery "x", Op.goNext, Op.setPageSize 20] initState) :=
  C3_view_ops_preserve_page_bounds dpNone _ initState (by decide)
    ⟨by decide, by decide, by decide⟩

/-- C3 counterexample: load 11 records (two pages at the default page
size 10), go to page 2, then a successful `load` returns one record:
`pageCount` drops to 1 but `page` stays 2, outside
`[1, max(1, ceil(F/pageSize))]` — nothing clamps it. -/
theorem C3_page_out_of_bounds_counterexample :
    ((applyOps dpNone
        [Op.loadSuccess elevenRows, Op.goNext, Op.loadSuccess [nameRowA]]
        initState).page = 2)
      ∧ pageCount dpNone (applyOps dpNone
          [Op.loadSuccess elevenRows, Op.goNext, Op.loadSuccess [nameRowA]]
          initState) = 1
      ∧ ¬ ((applyOps dpNone
          [Op.loadSuccess elevenRows, Op.goNext, Op.loadSuccess [nameRowA]]
          initState).page ≤ pageCount dpNone (applyOps dpNone
          [Op.loadSuccess elevenRows, Op.goNext, Op.loadSuccess [nameRowA]]
          initState)) :=
  ⟨by decide, by decide, by decide⟩

end HseApp
